import Mathlib

/-!
Verification development for the `zonemta-wildduck` plugin (src/index.js).

JavaScript strings are modelled as lists of Unicode code points (`List Nat`).
`ofStr` converts a Lean string literal to this representation for concrete
statements.  The external libraries that the plugin calls (mongodb, redis,
wildduck handlers, nodemailer parsing/rendering, the date formatter) are
modelled as explicit oracle parameters of the hook functions, so every hook
is a pure function of its inputs and of the responses of its collaborators.
-/

/-- JavaScript strings modelled as lists of code points. -/
abbrev JStr := List Nat

/-- Convert a Lean string literal into the code-point model. -/
def ofStr (s : String) : JStr := s.toList.map Char.toNat

/-- ASCII model of JavaScript `String.prototype.toLowerCase` on one code
point (the plugin only compares ASCII header keys and e-mail addresses). -/
def lowerCp (c : Nat) : Nat := if 65 ≤ c ∧ c ≤ 90 then c + 32 else c

/-- Model of the JavaScript whitespace class used by `String.prototype.trim`:
tab, line feed, vertical tab, form feed, carriage return, NBSP, BOM, the
line and paragraph separators, and the remaining Zs-category code points
(ogham space mark, the en-quad..hair-space range, narrow no-break space,
medium mathematical space, ideographic space). -/
def wsCp (c : Nat) : Bool :=
  c == 32 || c == 9 || c == 10 || c == 13 || c == 11 || c == 12 ||
  c == 160 || c == 65279 || c == 8232 || c == 8233 || c == 5760 ||
  c == 8192 || c == 8193 || c == 8194 || c == 8195 || c == 8196 ||
  c == 8197 || c == 8198 || c == 8199 || c == 8200 || c == 8201 ||
  c == 8202 || c == 8239 || c == 8287 || c == 12288

/-- JavaScript regular-expression line terminators (`.` does not match
these, and `$` without the `m` flag only matches at the very end). -/
def lineTermCp (c : Nat) : Bool :=
  c == 10 || c == 13 || c == 8232 || c == 8233

/-- Drop whitespace from the end of a list (the right half of `trim`). -/
def dropWhileEnd (p : Nat → Bool) (l : JStr) : JStr :=
  (l.reverse.dropWhile p).reverse

/-- Model of JavaScript `String.prototype.trim`. -/
def trimList (l : JStr) : JStr := dropWhileEnd wsCp (l.dropWhile wsCp)

/-- Model of the JavaScript replacement `replace(/\+.*$/, '')` used for
sub-address stripping: the match anchors at the first `+` that is followed
by no line terminator (`.` cannot cross a line terminator and `$` only
matches at the end of the input), and removes everything from that `+` on. -/
def stripPlusList : JStr → JStr
  | [] => []
  | c :: rest =>
    if c = 43 ∧ rest.all (fun x => !lineTermCp x) then []
    else c :: stripPlusList rest

/-- Split a list at the last occurrence of `c`: `some (before, after)`,
or `none` when `c` does not occur.  Models `lastIndexOf` plus the two
`substr` calls of the source. -/
def splitAtLast (c : Nat) : JStr → Option (JStr × JStr)
  | [] => none
  | x :: xs =>
    match splitAtLast c xs with
    | some (a, b) => some (x :: a, b)
    | none => if x = c then some ([], xs) else none

/-- Split a list at the first occurrence of `c`. -/
def splitAtFirst (c : Nat) : JStr → Option (JStr × JStr)
  | [] => none
  | x :: xs =>
    if x = c then some ([], xs)
    else
      match splitAtFirst c xs with
      | some (a, b) => some (x :: a, b)
      | none => none

/-- Decimal digits of a natural number as code points, with explicit fuel
so that the definition is structurally recursive (the fuel `n + 1` always
suffices).  Models the JavaScript number-to-string coercion for the
integers the plugin renders. -/
def digitsAux : Nat → Nat → JStr
  | 0, _ => []
  | fuel + 1, n => if n < 10 then [48 + n] else digitsAux fuel (n / 10) ++ [48 + n % 10]

/-- Decimal rendering of a natural number as code points. -/
def natDigits (n : Nat) : JStr := digitsAux (n + 1) n

/-- Replace the first occurrence of `pat` in a list by `rep`; the list is
returned unchanged when `pat` does not occur.  Models the JavaScript
`String.prototype.replace` with a plain-text pattern. -/
def replaceFirst (pat rep : JStr) : JStr → JStr
  | [] => []
  | c :: rest =>
    if pat.isPrefixOf (c :: rest) then rep ++ (c :: rest).drop pat.length
    else c :: replaceFirst pat rep rest

/-- Input accepted by `normalizeAddress`: a plain string or a parsed
`{name, address}` pair (the source wraps a plain string into `{address}`;
a missing/empty address yields the empty canonical result). -/
inductive AddrInput where
  | str (s : JStr)
  | obj (name : JStr) (address : JStr)
deriving DecidableEq

/-- The `address` component the source reads (`address.address`). -/
def addrStringOf : AddrInput → JStr
  | .str s => s
  | .obj _ a => a

/-- The local part the source computes: `substr(0, lastIndexOf('@'))`,
empty when there is no `@` (`substr(0, -1)` is empty in JavaScript). -/
def addrLocalOf (a : AddrInput) : JStr :=
  match splitAtLast 64 (addrStringOf a) with
  | some (l, _) => l
  | none => []

/-- The domain part the source computes: `substr(lastIndexOf('@') + 1)`,
the whole string when there is no `@`. -/
def addrDomainOf (a : AddrInput) : JStr :=
  match splitAtLast 64 (addrStringOf a) with
  | some (_, d) => d
  | none => addrStringOf a

/-- Local-part pipeline of `normalizeAddress`, in source order: the
external `String.prototype.normalize('NFC')` (the `nfc` oracle
parameter), then sub-address stripping, then lowercasing, then trimming. -/
def normalizeLocal (nfc : JStr → JStr) (l : JStr) : JStr :=
  trimList ((stripPlusList (nfc l)).map lowerCp)

/-- Domain pipeline of `normalizeAddress`, in source order: lowercase,
trim, then the external `punycode.toUnicode` (the `toUni` oracle
parameter; a library exception on a malformed `xn--` label would abort
the enclosing hook, so `toUni` models the successful conversion path). -/
def normalizeDomain (toUni : JStr → JStr) (d : JStr) : JStr :=
  toUni (trimList (d.map lowerCp))

/-- Model of `normalizeAddress` (src/index.js lines 395–420), string case
and object case, parameterized by the two external library maps (NFC
normalization and IDN-to-Unicode conversion).  The split is at the last
`@` (code point 64). -/
def normalizeAddress (nfc toUni : JStr → JStr) (a : AddrInput) : JStr :=
  if addrStringOf a = [] then []
  else normalizeLocal nfc (addrLocalOf a) ++ 64 :: normalizeDomain toUni (addrDomainOf a)

/-- Error value passed to a hook's callback: message text plus the
optional `responseCode` and `name` fields the source attaches. -/
structure MtaError where
  message : JStr
  responseCode : Option Nat := none
  name : Option JStr := none
deriving DecidableEq

/-- User record as projected by `getUser` (fields username, address,
quota, storageUsed, recipients plus the document id).  `quota = 0`,
`storageUsed = 0` and `recipients = 0` model the absent/falsy values. -/
structure User where
  _id : JStr
  username : JStr := []
  address : JStr := []
  quota : Nat := 0
  storageUsed : Nat := 0
  recipients : Nat := 0
deriving DecidableEq

/-- Plugin configuration surface (`app.config`). -/
structure Config where
  interfaces : List JStr := [ofStr "*"]
  forwarder : JStr := []
  rewriteDomain : JStr := []
  secret : JStr := []
  mx : Option (List JStr) := none
  mxPort : Nat := 0
  zoneAddress : JStr := []
deriving DecidableEq

/-- SMTP session data used by the auth and rcpt_to hooks. -/
structure Session where
  iface : JStr := []
  user : JStr := []
  remoteAddress : JStr := []
  envelopeId : JStr := []
deriving DecidableEq

/-- TLS metadata of an envelope (`envelope.tls`). -/
structure TlsInfo where
  version : JStr
  name : JStr
deriving DecidableEq

/-- Envelope of an in-flight message, with the fields the plugin reads.
Empty lists model absent/falsy string fields. -/
structure Envelope where
  id : JStr := []
  from_ : JStr := []
  to_ : List JStr := []
  user : JStr := []
  iface : JStr := []
  headers : List (JStr × JStr) := []
  origin : JStr := []
  originhost : JStr := []
  transhost : JStr := []
  transtype : JStr := []
  tls : Option TlsInfo := none
  time : Nat := 0
  remoteAddress : JStr := []
  clientHostname : JStr := []
  hostNameAppearsAs : JStr := []
  transmissionType : JStr := []
deriving DecidableEq

/-- Case-insensitive header-key comparison used by the zone-mta header
collection. -/
def headerKeyMatches (k1 k2 : JStr) : Bool := k1.map lowerCp == k2.map lowerCp

/-- Model of `headers.getFirst(key)`: the value of the first header whose
key matches case-insensitively, or the empty string. -/
def getFirst (hs : List (JStr × JStr)) (k : JStr) : JStr :=
  match hs.find? (fun p => headerKeyMatches p.1 k) with
  | some p => p.2
  | none => []

/-- Model of `headers.update(key, value)` of the zone-mta header
collection: existing headers with that key are replaced by the new value. -/
def updateHeader (hs : List (JStr × JStr)) (k v : JStr) : List (JStr × JStr) :=
  hs.filter (fun p => !headerKeyMatches p.1 k) ++ [(k, v)]

/-- Model of `headers.add(key, value, Infinity)`: append at the bottom. -/
def addHeader (hs : List (JStr × JStr)) (k v : JStr) : List (JStr × JStr) :=
  hs ++ [(k, v)]

/-- Model of `headers.build()`: serialized headers plus the terminating
blank line. -/
def headersBuild (hs : List (JStr × JStr)) : JStr :=
  (hs.map (fun p => p.1 ++ ofStr ": " ++ p.2 ++ ofStr "\r\n")).flatten ++ ofStr "\r\n"

/-- Model of the `checkInterface` helper (src/index.js lines 277–282):
pass when the configured interface list contains `*` or the session's
interface. -/
def checkInterface (cfg : Config) (iface : JStr) : Bool :=
  cfg.interfaces.contains (ofStr "*") || cfg.interfaces.contains iface

/-- Model of `getUser` (src/index.js lines 284–322).  The per-envelope
WeakMap cache is the `cached` argument; the `users` collection lookup is
the `findUser` oracle.  A missing authenticated username fails with
`Insufficient user info`; an empty lookup fails with `User "..." was not
found`. -/
def getUser (cached : Option User) (envUser : JStr)
    (findUser : JStr → Except MtaError (Option User)) : Except MtaError User :=
  match cached with
  | some u => .ok u
  | none =>
    if envUser = [] then .error { message := ofStr "Insufficient user info" }
    else
      match findUser envUser with
      | .error e => .error e
      | .ok none => .error { message := ofStr "User \"" ++ envUser ++ ofStr "\" was not found" }
      | .ok (some u) => .ok u

/-- Result of `userHandler.authenticate` (external wildduck library):
`none` models a falsy result (failed verification / no match). -/
structure AuthResult where
  username : JStr
  scope : JStr := []
  enabled2fa : Bool := false
deriving DecidableEq

/-- The mutable `auth` object of the smtp:auth hook. -/
structure AuthData where
  username : JStr
  password : JStr := []
deriving DecidableEq

/-- Model of the `smtp:auth` hook (src/index.js lines 40–61). -/
def smtpAuthHook (cfg : Config) (session : Session) (auth : AuthData)
    (authenticate : Except MtaError (Option AuthResult)) : Except MtaError AuthData :=
  if checkInterface cfg session.iface then
    match authenticate with
    | .error e => .error e
    | .ok none => .error { message := ofStr "Authentication failed", responseCode := some 535 }
    | .ok (some r) =>
      if r.scope = ofStr "master" ∧ r.enabled2fa = true then
        .error { message := ofStr "Authentication failed", responseCode := some 535 }
      else .ok { auth with username := r.username }
  else .ok auth

/-- One parsed address of the nodemailer `addressparser` result. -/
structure FromObj where
  name : JStr := []
  address : JStr := []
  group : Bool := false
deriving DecidableEq

/-- First parsed From: address as the source computes it: the head of the
parse result, collapsed to an empty object when it is a group construct. -/
def firstFromObj (parsed : List FromObj) : Option FromObj :=
  match parsed with
  | [] => none
  | o :: _ => some (if o.group then {} else o)

/-- Model of the `message:headers` hook (src/index.js lines 64–135).
`findAddress` is the `addresses` collection lookup keyed by (normalized
address, user id); `nfc` and `toUni` are the external maps used by
`normalizeAddress`; `parseAddresses` and `convertAddress` are the
external nodemailer address parser and renderer. -/
def messageHeadersHook (cfg : Config) (nfc toUni : JStr → JStr)
    (envelope : Envelope) (cached : Option User)
    (findUser : JStr → Except MtaError (Option User))
    (findAddress : JStr → JStr → Except MtaError Bool)
    (parseAddresses : JStr → List FromObj)
    (convertAddress : FromObj → JStr) : Except MtaError Envelope :=
  if checkInterface cfg envelope.iface then
    let headerFrom := getFirst envelope.headers (ofStr "from")
    let headerFromObj := if headerFrom ≠ [] then firstFromObj (parseAddresses headerFrom) else none
    match getUser cached envelope.user findUser with
    | .error e => .error e
    | .ok user =>
      match findAddress (normalizeAddress nfc toUni (.str envelope.from_)) user._id with
      | .error e => .error e
      | .ok addressFound =>
        let env1 := if addressFound then envelope else { envelope with from_ := user.address }
        match headerFromObj with
        | none => .ok env1
        | some obj =>
          match findAddress (normalizeAddress nfc toUni (.str obj.address)) user._id with
          | .error e => .error e
          | .ok true => .ok env1
          | .ok false =>
            let hs2 := updateHeader
              (updateHeader env1.headers (ofStr "From")
                (convertAddress { obj with address := env1.from_ }))
              (ofStr "X-WildDuck-Original-From") headerFrom
            .ok { env1 with headers := hs2 }
  else .ok envelope

/-- Result of the external `ttlcounter` increment (wildduck counters). -/
structure CounterResult where
  success : Bool
  value : Nat
  ttl : Nat
deriving DecidableEq

/-- Outcome of the rcpt_to hook together with the transcript of counter
increments it issued (key, cost, ceiling). -/
structure RcptResult where
  counterCalls : List (JStr × Nat × Nat)
  outcome : Except MtaError Unit

/-- Human-readable remaining-time clause (src/index.js lines 160–169):
seconds below one minute, rounded minutes below one hour, rounded hours
otherwise (`Math.round(x)` is `⌊x + 1/2⌋`). -/
def ttlHuman (ttl : Nat) : JStr :=
  if ttl < 60 then natDigits ttl ++ ofStr " seconds"
  else if ttl < 3600 then natDigits ((ttl + 30) / 60) ++ ofStr " minutes"
  else natDigits ((ttl + 1800) / 3600) ++ ofStr " hours"

/-- Denial message of the rcpt_to hook; the `Limit expires` clause is
omitted when the reported ttl is zero. -/
def rcptDenyMessage (ttl : Nat) : JStr :=
  ofStr "You reached a daily sending limit for your account" ++
  (if ttl ≠ 0 then ofStr ". Limit expires in " ++ ttlHuman ttl else [])

/-- Model of the `smtp:rcpt_to` hook (src/index.js lines 138–183).  Note
that a `getUser` failure makes the hook call `next()` without an error
(the recipient is allowed and no counter is touched). -/
def rcptToHook (cfg : Config) (session : Session) (cached : Option User)
    (findUser : JStr → Except MtaError (Option User))
    (counter : JStr → Nat → Nat → Except MtaError CounterResult) : RcptResult :=
  if checkInterface cfg session.iface then
    match getUser cached session.user findUser with
    | .error _ => ⟨[], .ok ()⟩
    | .ok user =>
      if user.recipients = 0 then ⟨[], .ok ()⟩
      else
        match counter (ofStr "wdr:" ++ user._id) 1 user.recipients with
        | .error e => ⟨[(ofStr "wdr:" ++ user._id, 1, user.recipients)], .error e⟩
        | .ok r =>
          if r.success = false then
            ⟨[(ofStr "wdr:" ++ user._id, 1, user.recipients)],
             .error { message := rcptDenyMessage r.ttl, responseCode := some 550,
                      name := some (ofStr "SMTPResponse") }⟩
          else ⟨[(ofStr "wdr:" ++ user._id, 1, user.recipients)], .ok ()⟩
  else ⟨[], .ok ()⟩

/-- JavaScript `Array.prototype.join(' ')`. -/
def joinSp : List JStr → JStr
  | [] => []
  | [x] => x
  | x :: xs => x ++ 32 :: joinSp xs

/-- Origin part of the Received header (src/index.js lines 354–362):
`([ip] hostname)` when both an IP literal and a resolvable client
hostname are present, the single part bare (trimmed) when only one is,
`localhost` when neither is.  A client hostname starting with `[` does
not count as resolvable. -/
def receivedOrigin (env : Envelope) : JStr :=
  let originBracket : JStr := if env.origin ≠ [] then 91 :: env.origin ++ [93] else []
  let parts : List JStr :=
    (if originBracket ≠ [] then [originBracket] else []) ++
    (if env.originhost ≠ [] ∧ env.originhost.head? ≠ some 91 then [env.originhost] else [])
  if parts.length > 1 then 40 :: joinSp parts ++ [41]
  else
    let j := trimList (joinSp parts)
    if j ≠ [] then j else ofStr "localhost"

/-- Model of `generateReceivedHeader` (src/index.js lines 352–393).  The
external date rendering (`new Date(time).toUTCString()`) is the `fmtDate`
oracle; the source's `replace(/GMT/, '+0000')` is applied to its output. -/
def generateReceivedHeader (fmtDate : Nat → JStr) (env : Envelope) (hostname : JStr) : JStr :=
  ofStr "Received: from" ++ (if env.transhost ≠ [] then 32 :: env.transhost else []) ++
  32 :: receivedOrigin env ++
  (if env.originhost ≠ [] ∧ env.originhost.head? ≠ some 91 then ofStr "\r\n" else []) ++
  (if env.user ≠ [] then ofStr " (Authenticated sender: " ++ env.user ++ ofStr ")\r\n"
   else if ¬ (env.originhost ≠ [] ∧ env.originhost.head? ≠ some 91) then ofStr "\r\n" else []) ++
  ofStr " by " ++ hostname ++ ofStr " with " ++ env.transtype ++ ofStr " id " ++ env.id ++
  (match env.to_ with
   | [a] => ofStr "\r\n for <" ++ a ++ ofStr ">"
   | _ => []) ++
  (match env.tls with
   | some t => ofStr "\r\n (version=" ++ t.version ++ ofStr " cipher=" ++ t.name ++ ofStr ")"
   | none => []) ++
  ofStr ";\r\n " ++ replaceFirst (ofStr "GMT") (ofStr "+0000") (fmtDate env.time)

/-- Metadata stored with an archived copy (`meta` of `messageHandler.add`). -/
structure ArchiveMeta where
  source : JStr
  from_ : JStr
  to_ : List JStr
  origin : JStr
  originhost : JStr
  transhost : JStr
  transtype : JStr
deriving DecidableEq

/-- Archive submission passed to the external `messageHandler.add`. -/
structure ArchiveReq where
  user : JStr
  specialUse : JStr
  meta : ArchiveMeta
  flags : List JStr
  raw : JStr
  skipExisting : Bool
deriving DecidableEq

/-- Outcome of the message:queue hook: the archive submission it made (if
any), whether the body stream was read, and the callback outcome. -/
structure QueueResult where
  archive : Option ArchiveReq
  streamedBody : Bool
  outcome : Except MtaError Unit

/-- Model of the `message:queue` hook (src/index.js lines 186–251).  The
body stream is the `body` oracle (its chunks, or a stream error); the
archive submission is recorded in the result.  The hook signals success
(`setImmediate(next)`) before `messageHandler.add` runs, so the archive
submission never affects the outcome. -/
def messageQueueHook (cfg : Config) (envelope : Envelope) (cached : Option User)
    (findUser : JStr → Except MtaError (Option User))
    (fmtDate : Nat → JStr) (hostname : JStr)
    (body : Except MtaError (List JStr)) : QueueResult :=
  if checkInterface cfg envelope.iface then
    match getUser cached envelope.user findUser with
    | .error e => ⟨none, false, .error e⟩
    | .ok user =>
      if user.quota ≠ 0 ∧ user.storageUsed > user.quota then ⟨none, false, .ok ()⟩
      else
        match body with
        | .error e => ⟨none, true, .error e⟩
        | .ok chunks =>
          ⟨some {
            user := user._id
            specialUse := ofStr "\\Sent"
            meta := { source := ofStr "SMTP", from_ := envelope.from_, to_ := envelope.to_,
                      origin := envelope.remoteAddress, originhost := envelope.clientHostname,
                      transhost := envelope.hostNameAppearsAs,
                      transtype := envelope.transmissionType }
            flags := [ofStr "\\Seen"]
            raw := ofStr "Return-Path: " ++ envelope.from_ ++ ofStr "\r\n" ++
                   generateReceivedHeader fmtDate envelope hostname ++ ofStr "\r\n" ++
                   headersBuild envelope.headers ++ chunks.flatten
            skipExisting := true }, true, .ok ()⟩
  else ⟨none, false, .ok ()⟩

/-- Envelope of an outbound delivery. -/
structure DeliveryEnvelope where
  from_ : JStr := []
  to_ : JStr := []
deriving DecidableEq

/-- Outbound delivery as seen by the sender:headers and sender:fetch
hooks, including the routing fields the MX override can set. -/
structure Delivery where
  id : JStr := []
  seq : JStr := []
  envelope : DeliveryEnvelope := {}
  iface : JStr := []
  headers : List (JStr × JStr) := []
  mx : List JStr := []
  mxPort : Nat := 0
  useLMTP : Bool := false
  zoneAddress : JStr := []
deriving DecidableEq

/-- Outcome of the sender:headers hook plus whether the SRS rewriter was
invoked at all. -/
structure SenderHeadersResult where
  delivery : Delivery
  srsCalled : Bool
deriving DecidableEq

/-- Model of the `sender:headers` hook (src/index.js lines 253–275).  The
SRS rewriter is the `srsFn` oracle (an exception from the library is the
`error` case, in which the sender is kept as is). -/
def senderHeadersHook (cfg : Config) (srsFn : JStr → JStr → Except JStr JStr)
    (d : Delivery) : SenderHeadersResult :=
  if d.envelope.from_ = [] ∨ d.iface ≠ cfg.forwarder then ⟨d, false⟩
  else
    let localPart := match splitAtLast 64 d.envelope.from_ with
      | some (l, _) => l
      | none => []
    let fromDomain := (match splitAtLast 64 d.envelope.from_ with
      | some (_, dom) => dom
      | none => d.envelope.from_).map lowerCp
    let hs := addHeader (addHeader (addHeader d.headers
      (ofStr "X-Original-Sender") d.envelope.from_)
      (ofStr "X-Zone-Forwarded-For") d.envelope.from_)
      (ofStr "X-Zone-Forwarded-To") d.envelope.to_
    match srsFn localPart fromDomain with
    | .ok tok =>
      let env2 : DeliveryEnvelope := { d.envelope with from_ := tok ++ 64 :: cfg.rewriteDomain }
      ⟨{ d with headers := hs, envelope := env2 }, true⟩
    | .error _ => ⟨{ d with headers := hs }, true⟩

/-- Model of the `sender:fetch` hook (src/index.js lines 324–346),
registered only when `app.config.mx` is set.  `findAddressAny` is the
`addresses` collection lookup by normalized address (any user). -/
def senderFetchHook (cfg : Config) (nfc toUni : JStr → JStr)
    (findAddressAny : JStr → Except MtaError Bool)
    (d : Delivery) : Except MtaError Delivery :=
  match findAddressAny (normalizeAddress nfc toUni (.str d.envelope.to_)) with
  | .error e => .error e
  | .ok false => .ok d
  | .ok true => .ok { d with
      mx := cfg.mx.getD []
      mxPort := cfg.mxPort
      useLMTP := true
      zoneAddress := cfg.zoneAddress }

/-- Error reported by the SRS decoder. -/
inductive SrsError where
  | invalidToken
  | invalidSignature
deriving DecidableEq

/-- Modelled from the spec: keyed checksum of the srs.js scheme (the
`srs.js` package is not part of src/).  A deterministic fold of the
shared secret and the signed payload. -/
def macNat (secret msg : JStr) : Nat :=
  (secret ++ msg).foldl (fun h c => h * 131 + c + 1) 7

/-- Modelled from the spec: signature rendered as decimal digits (so it
never contains the `=` separator, code point 61). -/
def srsSig (secret domain localPart : JStr) : JStr :=
  natDigits (macNat secret (domain ++ 61 :: localPart))

/-- Modelled from the spec: `srsRewriter.rewrite(localPart, domain)` —
a signed token `SRS0=<sig>=<domain>=<localPart>` embedding the original
pair under the shared secret (the timestamp/expiry component of the
concrete scheme is outside the claim and omitted). -/
def rewriteSRS (secret localPart domain : JStr) : JStr :=
  ofStr "SRS0=" ++ (srsSig secret domain localPart ++ (61 :: (domain ++ (61 :: localPart))))

/-- Modelled from the spec: `srsRewriter.reverse(token)` — validate the
signature and extract the original (localPart, domain), failing
deterministically on malformed or tampered tokens. -/
def reverseSRS (secret token : JStr) : Except SrsError (JStr × JStr) :=
  if token.take 5 = ofStr "SRS0=" then
    match splitAtFirst 61 (token.drop 5) with
    | none => .error .invalidToken
    | some (sig, rest) =>
      match splitAtFirst 61 rest with
      | none => .error .invalidToken
      | some (domain, localPart) =>
        if sig = srsSig secret domain localPart then .ok (localPart, domain)
        else .error .invalidSignature
  else .error .invalidToken

theorem lowerCp_eq_of_not_lower {t : Nat} (ht : ¬ (97 ≤ t ∧ t ≤ 122)) (c : Nat)
    (h : lowerCp c = t) : c = t := by
  unfold lowerCp at h
  split at h
  · omega
  · exact h

theorem lineTermCp_iff (c : Nat) : lineTermCp c = true ↔
    (c = 10 ∨ c = 13 ∨ c = 8232 ∨ c = 8233) := by
  simp [lineTermCp, or_assoc]

theorem mem_digitsAux {fuel n c : Nat} (h : c ∈ digitsAux fuel n) :
    48 ≤ c ∧ c ≤ 57 := by
  induction fuel generalizing n with
  | zero => simp [digitsAux] at h
  | succ fuel ih =>
    unfold digitsAux at h
    split at h
    · simp at h
      omega
    · rcases List.mem_append.mp h with h' | h'
      · exact ih h'
      · simp at h'
        have := Nat.mod_lt n (show 0 < 10 by omega)
        omega

theorem mem_natDigits {n c : Nat} (h : c ∈ natDigits n) : 48 ≤ c ∧ c ≤ 57 :=
  mem_digitsAux h

theorem splitAtLast_none_sound {c : Nat} : ∀ {l : JStr},
    splitAtLast c l = none → c ∉ l := by
  intro l
  induction l with
  | nil => intro _; simp
  | cons x xs ih =>
    intro h hm
    rcases hx : splitAtLast c xs with _ | ⟨a', b'⟩
    · simp only [splitAtLast, hx] at h
      rcases List.mem_cons.mp hm with h' | h'
      · rw [if_pos h'.symm] at h
        exact absurd h (by simp)
      · exact ih hx h'
    · simp only [splitAtLast, hx] at h
      exact Option.noConfusion h

theorem splitAtLast_sound {c : Nat} : ∀ {l a b : JStr},
    splitAtLast c l = some (a, b) → l = a ++ c :: b ∧ c ∉ b := by
  intro l
  induction l with
  | nil => intro a b h; simp [splitAtLast] at h
  | cons x xs ih =>
    intro a b h
    rcases hx : splitAtLast c xs with _ | ⟨a', b'⟩
    · simp only [splitAtLast, hx] at h
      split at h
      · next hxc =>
        injection h with h1
        injection h1 with ha hb
        subst ha; subst hb; subst hxc
        exact ⟨rfl, splitAtLast_none_sound hx⟩
      · exact absurd h (by simp)
    · simp only [splitAtLast, hx] at h
      injection h with h1
      injection h1 with ha hb
      obtain ⟨h2, h3⟩ := ih hx
      subst ha; subst hb
      exact ⟨by rw [h2]; rfl, h3⟩

theorem splitAtFirst_sound {c : Nat} : ∀ {l a b : JStr},
    splitAtFirst c l = some (a, b) → l = a ++ c :: b ∧ c ∉ a := by
  intro l
  induction l with
  | nil => intro a b h; simp [splitAtFirst] at h
  | cons x xs ih =>
    intro a b h
    unfold splitAtFirst at h
    split at h
    · next hxc =>
      injection h with h1
      injection h1 with ha hb
      subst ha; subst hb; subst hxc
      exact ⟨rfl, by simp⟩
    · next hxc =>
      rcases hx : splitAtFirst c xs with _ | ⟨a', b'⟩
      · simp only [hx] at h
        exact Option.noConfusion h
      · simp only [hx] at h
        injection h with h1
        injection h1 with ha hb
        obtain ⟨h2, h3⟩ := ih hx
        subst ha; subst hb
        constructor
        · rw [h2]; rfl
        · intro hm
          rcases List.mem_cons.mp hm with h' | h'
          · exact hxc h'.symm
          · exact h3 h'

theorem splitAtFirst_append {c : Nat} {a : JStr} (b : JStr) (ha : c ∉ a) :
    splitAtFirst c (a ++ c :: b) = some (a, b) := by
  induction a with
  | nil =>
    show splitAtFirst c (c :: b) = _
    unfold splitAtFirst
    rw [if_pos rfl]
  | cons x xs ih =>
    show splitAtFirst c (x :: (xs ++ c :: b)) = _
    unfold splitAtFirst
    rw [if_neg (fun he => ha (List.mem_cons.mpr (Or.inl he.symm)))]
    rw [ih (fun hm => ha (List.mem_cons.mpr (Or.inr hm)))]

theorem dropWhile_eq_self_of_head {p : Nat → Bool} {l : JStr}
    (h : ∀ c, l.head? = some c → p c = false) : l.dropWhile p = l := by
  cases l with
  | nil => rfl
  | cons x xs => rw [List.dropWhile_cons, if_neg (by simp [h x rfl])]

theorem trimList_eq_self {l : JStr}
    (h1 : ∀ c, l.head? = some c → wsCp c = false)
    (h2 : ∀ c, l.getLast? = some c → wsCp c = false) : trimList l = l := by
  unfold trimList dropWhileEnd
  rw [dropWhile_eq_self_of_head h1]
  rw [dropWhile_eq_self_of_head (fun c h => h2 c (by rw [← List.head?_reverse]; exact h))]
  exact List.reverse_reverse l

theorem lowerCp_eq_43 {c : Nat} (h : lowerCp c = 43) : c = 43 :=
  lowerCp_eq_of_not_lower (by omega) c h

theorem lowerCp_eq_64 {c : Nat} (h : lowerCp c = 64) : c = 64 :=
  lowerCp_eq_of_not_lower (by omega) c h

theorem srsSig_no_sep (secret domain localPart : JStr) :
    61 ∉ srsSig secret domain localPart := by
  intro hm
  have := mem_natDigits hm
  omega

/-- C5: for every pair (localPart, domain) with no `=` separator in the
domain, decoding the SRS token produced by rewriting the pair under the
shared secret yields exactly that pair; and every token that decodes
successfully is exactly the rewriting of the decoded pair — hence every
tampered token (any token that is not a genuine encoding) fails
deterministically with a tamper error. -/
theorem srsRewriter_roundtrip_tamper (secret localPart domain t : JStr)
    (hd : 61 ∉ domain) :
    reverseSRS secret (rewriteSRS secret localPart domain) = .ok (localPart, domain) ∧
    (∀ l2 d2, reverseSRS secret t = .ok (l2, d2) → t = rewriteSRS secret l2 d2) := by
  constructor
  · have htake : (rewriteSRS secret localPart domain).take 5 = ofStr "SRS0=" := by
      unfold rewriteSRS
      rw [show (5 : Nat) = (ofStr "SRS0=").length from rfl, List.take_left]
    have hdrop : (rewriteSRS secret localPart domain).drop 5 =
        srsSig secret domain localPart ++ (61 :: (domain ++ (61 :: localPart))) := by
      unfold rewriteSRS
      rw [show (5 : Nat) = (ofStr "SRS0=").length from rfl, List.drop_left]
    have h1 : splitAtFirst 61
        (srsSig secret domain localPart ++ (61 :: (domain ++ (61 :: localPart)))) =
        some (srsSig secret domain localPart, domain ++ (61 :: localPart)) :=
      splitAtFirst_append _ (srsSig_no_sep secret domain localPart)
    have h2 : splitAtFirst 61 (domain ++ (61 :: localPart)) = some (domain, localPart) :=
      splitAtFirst_append _ hd
    simp [reverseSRS, htake, hdrop, h1, h2]
  · intro l2 d2 hok
    unfold reverseSRS at hok
    split at hok
    · next htake =>
      rcases hsp1 : splitAtFirst 61 (t.drop 5) with _ | ⟨sig, rest⟩
      · simp only [hsp1] at hok
        exact Except.noConfusion hok
      · simp only [hsp1] at hok
        rcases hsp2 : splitAtFirst 61 rest with _ | ⟨dm, lp⟩
        · simp only [hsp2] at hok
          exact Except.noConfusion hok
        · simp only [hsp2] at hok
          split at hok
          · next hsig =>
            injection hok with h1
            injection h1 with hl2 hd2
            subst hl2; subst hd2
            obtain ⟨ht1, _⟩ := splitAtFirst_sound hsp1
            obtain ⟨ht2, _⟩ := splitAtFirst_sound hsp2
            have htd : t.take 5 ++ t.drop 5 = t := List.take_append_drop 5 t
            conv_lhs => rw [← htd]
            rw [htake, ht1, ht2, hsig]
            rfl
          · exact Except.noConfusion hok
    · exact Except.noConfusion hok

/-- C5 witness: the round trip at the concrete pair (`alice`,
`example.org`) under the secret `s3cret`, and decode-soundness at a
concrete foreign token. -/
theorem srsRewriter_roundtrip_tamper_witness :
    reverseSRS (ofStr "s3cret") (rewriteSRS (ofStr "s3cret") (ofStr "alice") (ofStr "example.org")) =
      .ok (ofStr "alice", ofStr "example.org") ∧
    (∀ l2 d2, reverseSRS (ofStr "s3cret") (ofStr "SRS0=123=example.org=alice") = .ok (l2, d2) →
      ofStr "SRS0=123=example.org=alice" = rewriteSRS (ofStr "s3cret") l2 d2) :=
  srsRewriter_roundtrip_tamper (ofStr "s3cret") (ofStr "alice") (ofStr "example.org")
    (ofStr "SRS0=123=example.org=alice") (by decide)

theorem find?_filter_none {q p : (JStr × JStr) → Bool} {l : List (JStr × JStr)}
    (h : ∀ x, p x = true → q x = false) : (l.filter q).find? p = none :=
  List.find?_eq_none.mpr (fun x hx hp => by
    have hq := (List.mem_filter.mp hx).2
    rw [h x hp] at hq
    exact Bool.noConfusion hq)

theorem find?_filter_keep {q p : (JStr × JStr) → Bool}
    (h : ∀ x, p x = true → q x = true) : ∀ l : List (JStr × JStr),
    (l.filter q).find? p = l.find? p := by
  intro l
  induction l with
  | nil => rfl
  | cons x xs ih =>
    rcases hp : p x with _ | _
    · rcases hq : q x with _ | _
      · simp [List.filter_cons, hq, List.find?_cons, hp, ih]
      · simp [List.filter_cons, hq, List.find?_cons, hp, ih]
    · have hq := h x hp
      simp [List.filter_cons, hq, List.find?_cons, hp]

theorem headerKeyMatches_refl (k : JStr) : headerKeyMatches k k = true := by
  simp [headerKeyMatches]

theorem getFirst_updateHeader_same (hs : List (JStr × JStr)) (k v : JStr) :
    getFirst (updateHeader hs k v) k = v := by
  unfold getFirst updateHeader
  rw [List.find?_append]
  rw [find?_filter_none (fun x hx => by rw [hx]; rfl)]
  rw [Option.none_or]
  rw [List.find?_cons]
  rw [show headerKeyMatches (k, v).1 k = true from headerKeyMatches_refl k]

theorem getFirst_updateHeader_other (hs : List (JStr × JStr)) {k k2 : JStr} (v : JStr)
    (hne : k.map lowerCp ≠ k2.map lowerCp) :
    getFirst (updateHeader hs k2 v) k = getFirst hs k := by
  unfold getFirst updateHeader
  rw [List.find?_append]
  have hkeep : ∀ x : JStr × JStr, headerKeyMatches x.1 k = true →
      (!headerKeyMatches x.1 k2) = true := by
    intro x hx
    have hxk : x.1.map lowerCp = k.map lowerCp := by
      simpa [headerKeyMatches] using hx
    simp [headerKeyMatches, hxk, hne]
  rw [find?_filter_keep hkeep]
  have hk2 : headerKeyMatches (k2, v).1 k = false := by
    simp only [headerKeyMatches, beq_eq_false_iff_ne, ne_eq]
    exact fun hq2 => hne hq2.symm
  have hlast : List.find? (fun p => headerKeyMatches p.1 k) [(k2, v)] = none := by
    rw [List.find?_cons, hk2]
    rfl
  rw [hlast, Option.or_none]

/-- C2: when the first parsed From: header address is not among the
authenticated user's authorized addresses, the message:headers hook
succeeds with an envelope whose From: header is rendered from the
original name and the (possibly already corrected) envelope sender —
envelope-from correction happens first, and the substituted address is
exactly the corrected `env'.from_` — while the original From: header
value is preserved under `X-WildDuck-Original-From`. -/
theorem messageHeaders_from_rewrite
    (cfg : Config) (nfc toUni : JStr → JStr) (envelope : Envelope) (cached : Option User)
    (findUser : JStr → Except MtaError (Option User))
    (findAddress : JStr → JStr → Except MtaError Bool)
    (parseAddresses : JStr → List FromObj)
    (convertAddress : FromObj → JStr)
    (u : User) (obj : FromObj) (rest : List FromObj) (found1 : Bool)
    (hif : checkInterface cfg envelope.iface = true)
    (hu : getUser cached envelope.user findUser = .ok u)
    (hhf : getFirst envelope.headers (ofStr "from") ≠ [])
    (hparse : parseAddresses (getFirst envelope.headers (ofStr "from")) = obj :: rest)
    (hgrp : obj.group = false)
    (h1 : findAddress (normalizeAddress nfc toUni (.str envelope.from_)) u._id = .ok found1)
    (h2 : findAddress (normalizeAddress nfc toUni (.str obj.address)) u._id = .ok false) :
    ∃ env' : Envelope,
      messageHeadersHook cfg nfc toUni envelope cached findUser findAddress parseAddresses
        convertAddress = .ok env' ∧
      env'.from_ = (if found1 = true then envelope.from_ else u.address) ∧
      getFirst env'.headers (ofStr "From") =
        convertAddress { obj with address := env'.from_ } ∧
      getFirst env'.headers (ofStr "X-WildDuck-Original-From") =
        getFirst envelope.headers (ofStr "from") := by
  refine ⟨{ (if found1 = true then envelope else { envelope with from_ := u.address }) with
    headers := updateHeader (updateHeader
      (if found1 = true then envelope else { envelope with from_ := u.address }).headers
      (ofStr "From") (convertAddress { obj with address :=
        (if found1 = true then envelope else { envelope with from_ := u.address }).from_ }))
      (ofStr "X-WildDuck-Original-From") (getFirst envelope.headers (ofStr "from")) },
    ?_, ?_, ?_, ?_⟩
  · simp only [messageHeadersHook]
    rw [if_pos hif, if_pos hhf, hparse]
    simp only [firstFromObj]
    rw [hgrp]
    simp only [Bool.false_eq_true, if_false, hu, h1, h2]
    rw [hgrp]
  · cases found1 <;> rfl
  · rw [getFirst_updateHeader_other _ _ (by decide), getFirst_updateHeader_same]
  · exact getFirst_updateHeader_same _ _ _

/-- C1 (amended): identity-resolution failures (missing authenticated
username, store error, or user not found) are propagated to the caller as
hard failures by the message:headers and message:queue hooks; the
recipient rate gate (rcpt_to) instead completes without error when
resolution fails, silently allowing the recipient and touching no
counter. -/
theorem hooks_identity_resolution_failure
    (cfg : Config) (nfc toUni : JStr → JStr) (envelope : Envelope) (session : Session)
    (cachedE cachedS : Option User)
    (findUser findUserS : JStr → Except MtaError (Option User))
    (findAddress : JStr → JStr → Except MtaError Bool)
    (parseAddresses : JStr → List FromObj) (convertAddress : FromObj → JStr)
    (fmtDate : Nat → JStr) (hostname : JStr) (body : Except MtaError (List JStr))
    (counter : JStr → Nat → Nat → Except MtaError CounterResult)
    (e eS : MtaError)
    (hifE : checkInterface cfg envelope.iface = true)
    (hifS : checkInterface cfg session.iface = true)
    (hgu : getUser cachedE envelope.user findUser = .error e)
    (hguS : getUser cachedS session.user findUserS = .error eS) :
    messageHeadersHook cfg nfc toUni envelope cachedE findUser findAddress parseAddresses
      convertAddress = .error e ∧
    messageQueueHook cfg envelope cachedE findUser fmtDate hostname body =
      ⟨none, false, .error e⟩ ∧
    rcptToHook cfg session cachedS findUserS counter = ⟨[], .ok ()⟩ := by
  refine ⟨?_, ?_, ?_⟩
  · simp only [messageHeadersHook]
    rw [if_pos hifE]
    simp only [hgu]
  · simp only [messageQueueHook]
    rw [if_pos hifE]
    simp only [hgu]
  · simp only [rcptToHook]
    rw [if_pos hifS]
    simp only [hguS]

/-- C1 witness: with no cached user, no authenticated username and any
stores, resolution fails with `Insufficient user info`; the header and
queue hooks fail with that error while the rcpt_to hook succeeds. -/
theorem hooks_identity_resolution_failure_witness :
    messageHeadersHook {} (fun s => s) (fun s => s) {} none (fun _ => .ok none)
      (fun _ _ => .ok true)
      (fun _ => []) (fun o => o.address) =
      .error { message := ofStr "Insufficient user info" } ∧
    messageQueueHook {} {} none (fun _ => .ok none)
      (fun _ => ofStr "Thu, 01 Jan 1970 00:00:00 GMT") (ofStr "mx.example.net")
      (.ok []) = ⟨none, false, .error { message := ofStr "Insufficient user info" }⟩ ∧
    rcptToHook {} {} none (fun _ => .ok none)
      (fun _ _ _ => .ok { success := true, value := 0, ttl := 0 }) = ⟨[], .ok ()⟩ :=
  hooks_identity_resolution_failure {} (fun s => s) (fun s => s) {} {} none none (fun _ => .ok none)
    (fun _ => .ok none) (fun _ _ => .ok true) (fun _ => []) (fun o => o.address)
    (fun _ => ofStr "Thu, 01 Jan 1970 00:00:00 GMT") (ofStr "mx.example.net")
    (.ok []) (fun _ _ _ => .ok { success := true, value := 0, ttl := 0 })
    { message := ofStr "Insufficient user info" }
    { message := ofStr "Insufficient user info" }
    rfl rfl rfl rfl

/-- C1 counterexample: for a session with no authenticated username
(identity resolution fails with `Insufficient user info`), the rcpt_to
hook completes without error — it allows the recipient and touches no
counter instead of propagating the failure as a hard failure of the
hook, refuting the claim as stated. -/
theorem rcptTo_swallows_resolution_failure_counterexample :
    getUser none ([] : JStr) (fun _ => .ok none) =
      .error { message := ofStr "Insufficient user info" } ∧
    rcptToHook {} {} none (fun _ => .ok none)
      (fun _ _ _ => .ok { success := true, value := 0, ttl := 0 }) =
      ⟨[], .ok ()⟩ :=
  ⟨rfl, rfl⟩

/-- C4 (amended): for every envelope whose resolved user has a nonzero
(configured) quota with storageUsed > quota, the message:queue hook
performs no archive submission, reads no body stream, and still completes
the hook successfully, so the mail is not blocked. -/
theorem messageQueue_over_quota_skip
    (cfg : Config) (envelope : Envelope) (cached : Option User)
    (findUser : JStr → Except MtaError (Option User))
    (fmtDate : Nat → JStr) (hostname : JStr) (body : Except MtaError (List JStr))
    (u : User)
    (hif : checkInterface cfg envelope.iface = true)
    (hu : getUser cached envelope.user findUser = .ok u)
    (hq : u.quota ≠ 0) (hover : u.storageUsed > u.quota) :
    messageQueueHook cfg envelope cached findUser fmtDate hostname body =
      ⟨none, false, .ok ()⟩ := by
  simp only [messageQueueHook]
  rw [if_pos hif]
  simp only [hu]
  rw [if_pos ⟨hq, hover⟩]

/-- C4 witness: a user with quota 1000 and storageUsed 2000 makes the
queue hook skip archival and succeed. -/
theorem messageQueue_over_quota_skip_witness :
    messageQueueHook {} {} (some { _id := ofStr "u1", quota := 1000, storageUsed := 2000 })
      (fun _ => .ok none) (fun _ => ofStr "Thu, 01 Jan 1970 00:00:00 GMT")
      (ofStr "mx.example.net") (.ok [ofStr "BODY"]) = ⟨none, false, .ok ()⟩ :=
  messageQueue_over_quota_skip {} {} (some { _id := ofStr "u1", quota := 1000, storageUsed := 2000 })
    (fun _ => .ok none) (fun _ => ofStr "Thu, 01 Jan 1970 00:00:00 GMT")
    (ofStr "mx.example.net") (.ok [ofStr "BODY"])
    { _id := ofStr "u1", quota := 1000, storageUsed := 2000 }
    rfl rfl (by decide) (by decide)

/-- C4 counterexample: a resolved user with `quota = 0` (falsy, so the
source's `user.quota && user.storageUsed > user.quota` guard does not
fire) and `storageUsed = 1` satisfies the claim's premise
`storageUsed > quota`, yet the hook does read the body stream and does
submit an archive copy — refuting the claim as stated. -/
theorem messageQueue_over_quota_counterexample :
    (messageQueueHook {} {} (some { _id := ofStr "u1", quota := 0, storageUsed := 1 })
      (fun _ => .ok none) (fun _ => ofStr "Thu, 01 Jan 1970 00:00:00 GMT")
      (ofStr "mx.example.net") (.ok [ofStr "BODY"])).archive.isSome = true ∧
    (messageQueueHook {} {} (some { _id := ofStr "u1", quota := 0, storageUsed := 1 })
      (fun _ => .ok none) (fun _ => ofStr "Thu, 01 Jan 1970 00:00:00 GMT")
      (ofStr "mx.example.net") (.ok [ofStr "BODY"])).streamedBody = true ∧
    (1 : Nat) > 0 :=
  ⟨rfl, rfl, by omega⟩

/-- C3: the recipient rate gate.  With the interface covered and the
identity resolved: a user with no configured recipient cap is allowed
unconditionally and no counter is touched; otherwise exactly one
increment of cost 1 against ceiling `recipients` is issued on the
per-identity key `wdr:<id>`; when the counter denies, the hook fails with
responseCode 550 and the human-readable message whose `Limit expires`
clause renders the ttl as seconds below one minute, rounded minutes below
one hour, rounded hours otherwise, and is omitted for ttl 0. -/
theorem rcptTo_rate_gate
    (cfg : Config) (session : Session) (cached : Option User)
    (findUser : JStr → Except MtaError (Option User))
    (counter : JStr → Nat → Nat → Except MtaError CounterResult)
    (u : User) (r : CounterResult)
    (hif : checkInterface cfg session.iface = true)
    (hu : getUser cached session.user findUser = .ok u) :
    (u.recipients = 0 → rcptToHook cfg session cached findUser counter = ⟨[], .ok ()⟩) ∧
    (u.recipients ≠ 0 → counter (ofStr "wdr:" ++ u._id) 1 u.recipients = .ok r →
      (rcptToHook cfg session cached findUser counter).counterCalls =
        [(ofStr "wdr:" ++ u._id, 1, u.recipients)] ∧
      (r.success = false →
        (rcptToHook cfg session cached findUser counter).outcome =
          .error { message := rcptDenyMessage r.ttl, responseCode := some 550,
                   name := some (ofStr "SMTPResponse") }) ∧
      (r.success = true →
        (rcptToHook cfg session cached findUser counter).outcome = .ok ())) ∧
    (∀ ttl : Nat, ttl ≠ 0 →
      rcptDenyMessage ttl = ofStr "You reached a daily sending limit for your account" ++
        (ofStr ". Limit expires in " ++ ttlHuman ttl)) ∧
    rcptDenyMessage 0 = ofStr "You reached a daily sending limit for your account" ∧
    (∀ ttl : Nat, ttl < 60 → ttlHuman ttl = natDigits ttl ++ ofStr " seconds") ∧
    (∀ ttl : Nat, 60 ≤ ttl → ttl < 3600 →
      ttlHuman ttl = natDigits ((ttl + 30) / 60) ++ ofStr " minutes") ∧
    (∀ ttl : Nat, 3600 ≤ ttl →
      ttlHuman ttl = natDigits ((ttl + 1800) / 3600) ++ ofStr " hours") := by
  have hhook : ∀ (hru : u.recipients ≠ 0) (hc : counter (ofStr "wdr:" ++ u._id) 1 u.recipients = .ok r),
      rcptToHook cfg session cached findUser counter =
        ⟨[(ofStr "wdr:" ++ u._id, 1, u.recipients)],
         if r.success = false then
           .error { message := rcptDenyMessage r.ttl, responseCode := some 550,
                    name := some (ofStr "SMTPResponse") }
         else .ok ()⟩ := by
    intro hru hc
    simp only [rcptToHook]
    rw [if_pos hif]
    simp only [hu]
    rw [if_neg hru]
    simp only [hc]
    rcases hs : r.success with _ | _
    · rw [if_pos rfl, if_pos rfl]
    · rw [if_neg (fun h => Bool.noConfusion h), if_neg (fun h => Bool.noConfusion h)]
  refine ⟨?_, ?_, ?_, ?_, ?_, ?_, ?_⟩
  · intro h0
    simp only [rcptToHook]
    rw [if_pos hif]
    simp only [hu]
    rw [if_pos h0]
  · intro hru hc
    rw [hhook hru hc]
    refine ⟨rfl, ?_, ?_⟩
    · intro hs
      rw [if_pos hs]
    · intro hs
      rw [if_neg (by rw [hs]; exact fun h => Bool.noConfusion h)]
  · intro ttl httl
    unfold rcptDenyMessage
    rw [if_pos httl]
  · unfold rcptDenyMessage
    rw [if_neg (by omega), List.append_nil]
  · intro ttl h
    unfold ttlHuman
    rw [if_pos h]
  · intro ttl h1 h2
    unfold ttlHuman
    rw [if_neg (by omega), if_pos h2]
  · intro ttl h1
    unfold ttlHuman
    rw [if_neg (by omega), if_neg (by omega)]

/-- C3 witness: a user with cap 2 whose counter reports a denial with
ttl 120 is denied with a 550 error reading `... Limit expires in 2
minutes`, after exactly one cost-1 increment of `wdr:u1`. -/
theorem rcptTo_rate_gate_witness :
    ((rcptToHook {} {} (some { _id := ofStr "u1", recipients := 2 })
        (fun _ => .ok none)
        (fun _ _ _ => .ok { success := false, value := 3, ttl := 120 })).counterCalls =
      [(ofStr "wdr:" ++ ofStr "u1", 1, 2)] ∧
     ((false : Bool) = false →
      (rcptToHook {} {} (some { _id := ofStr "u1", recipients := 2 })
        (fun _ => .ok none)
        (fun _ _ _ => .ok { success := false, value := 3, ttl := 120 })).outcome =
        .error { message := rcptDenyMessage 120, responseCode := some 550,
                 name := some (ofStr "SMTPResponse") }) ∧
     ((false : Bool) = true →
      (rcptToHook {} {} (some { _id := ofStr "u1", recipients := 2 })
        (fun _ => .ok none)
        (fun _ _ _ => .ok { success := false, value := 3, ttl := 120 })).outcome = .ok ())) ∧
    ttlHuman 120 = natDigits 2 ++ ofStr " minutes" :=
  ⟨(rcptTo_rate_gate {} {} (some { _id := ofStr "u1", recipients := 2 })
      (fun _ => .ok none)
      (fun _ _ _ => .ok { success := false, value := 3, ttl := 120 })
      { _id := ofStr "u1", recipients := 2 }
      { success := false, value := 3, ttl := 120 } rfl rfl).2.1 (by decide) rfl,
   ((rcptTo_rate_gate {} {} (some { _id := ofStr "u1", recipients := 2 })
      (fun _ => .ok none)
      (fun _ _ _ => .ok { success := false, value := 3, ttl := 120 })
      { _id := ofStr "u1", recipients := 2 }
      { success := false, value := 3, ttl := 120 } rfl rfl).2.2.2.2.2.1 120
      (by decide) (by decide)).symm ▸ rfl⟩

/-- C7: with the interface covered and infrastructure errors carrying no
535 code, the auth hook fails with responseCode 535 exactly when the
store returns no result (failed verification) or returns a master-scope
account with two-factor enabled; on success the session's authenticated
username is replaced by the username the store returned. -/
theorem smtpAuth_deny_535
    (cfg : Config) (session : Session) (auth : AuthData)
    (authenticate : Except MtaError (Option AuthResult))
    (hif : checkInterface cfg session.iface = true)
    (hinfra : ∀ e, authenticate = .error e → e.responseCode ≠ some 535) :
    ((∃ e, smtpAuthHook cfg session auth authenticate = .error e ∧
        e.responseCode = some 535) ↔
      (authenticate = .ok none ∨
       ∃ r, authenticate = .ok (some r) ∧ r.scope = ofStr "master" ∧
         r.enabled2fa = true)) ∧
    (∀ r, authenticate = .ok (some r) →
      ¬ (r.scope = ofStr "master" ∧ r.enabled2fa = true) →
      smtpAuthHook cfg session auth authenticate = .ok { auth with username := r.username }) := by
  rcases authenticate with e | res
  · have hhookE : smtpAuthHook cfg session auth (.error e) = .error e := by
      simp only [smtpAuthHook]
      rw [if_pos hif]
    constructor
    · constructor
      · rintro ⟨e', he', h535⟩
        rw [hhookE] at he'
        injection he' with hee
        subst hee
        exact absurd h535 (hinfra e rfl)
      · rintro (h | ⟨r, hr, _⟩)
        · exact Except.noConfusion h
        · exact Except.noConfusion hr
    · intro r hr
      exact absurd hr (fun h => Except.noConfusion h)
  · rcases res with _ | r
    · have hhookN : smtpAuthHook cfg session auth (.ok none) =
          .error { message := ofStr "Authentication failed", responseCode := some 535 } := by
        simp only [smtpAuthHook]
        rw [if_pos hif]
      refine ⟨⟨fun _ => Or.inl rfl,
        fun _ => ⟨({ message := ofStr "Authentication failed", responseCode := some 535 } : MtaError),
          hhookN, rfl⟩⟩, ?_⟩
      intro r hr
      injection hr with h'
      exact Option.noConfusion h'
    · by_cases hc : r.scope = ofStr "master" ∧ r.enabled2fa = true
      · have hhookM : smtpAuthHook cfg session auth (.ok (some r)) =
            .error { message := ofStr "Authentication failed", responseCode := some 535 } := by
          simp only [smtpAuthHook]
          rw [if_pos hif]
          show (if r.scope = ofStr "master" ∧ r.enabled2fa = true then
              Except.error ({ message := ofStr "Authentication failed", responseCode := some 535 } : MtaError)
            else Except.ok { auth with username := r.username }) = _
          rw [if_pos hc]
        refine ⟨⟨fun _ => Or.inr ⟨r, rfl, hc.1, hc.2⟩,
          fun _ => ⟨({ message := ofStr "Authentication failed", responseCode := some 535 } : MtaError),
            hhookM, rfl⟩⟩, ?_⟩
        intro r2 hr2 hnc
        injection hr2 with h'
        injection h' with h''
        subst h''
        exact absurd hc hnc
      · have hhookS : smtpAuthHook cfg session auth (.ok (some r)) =
            .ok { auth with username := r.username } := by
          simp only [smtpAuthHook]
          rw [if_pos hif]
          show (if r.scope = ofStr "master" ∧ r.enabled2fa = true then
              Except.error ({ message := ofStr "Authentication failed", responseCode := some 535 } : MtaError)
            else Except.ok { auth with username := r.username }) = _
          rw [if_neg hc]
        constructor
        · constructor
          · rintro ⟨e', he', _⟩
            rw [hhookS] at he'
            exact Except.noConfusion he'
          · rintro (h | ⟨r2, hr2, hsc, h2f⟩)
            · injection h with h'
              exact Option.noConfusion h'
            · injection hr2 with h'
              injection h' with h''
              subst h''
              exact absurd ⟨hsc, h2f⟩ hc
        · intro r2 hr2 _
          injection hr2 with h'
          injection h' with h''
          subst h''
          exact hhookS

/-- C7 witness: a non-master account with 2FA disabled authenticates and
the session username is canonicalized to the store's value; the 535
characterization holds at this input. -/
theorem smtpAuth_deny_535_witness :
    ((∃ e, smtpAuthHook {} {} { username := ofStr "ALICE" }
        (.ok (some { username := ofStr "alice", scope := ofStr "user", enabled2fa := false })) =
          .error e ∧ e.responseCode = some 535) ↔
      ((Except.ok (some { username := ofStr "alice", scope := ofStr "user", enabled2fa := false }) =
          (.ok none : Except MtaError (Option AuthResult))) ∨
       ∃ r, (Except.ok (some { username := ofStr "alice", scope := ofStr "user", enabled2fa := false }) =
          (.ok (some r) : Except MtaError (Option AuthResult))) ∧ r.scope = ofStr "master" ∧
         r.enabled2fa = true)) ∧
    (∀ r, (Except.ok (some { username := ofStr "alice", scope := ofStr "user", enabled2fa := false }) =
        (.ok (some r) : Except MtaError (Option AuthResult))) →
      ¬ (r.scope = ofStr "master" ∧ r.enabled2fa = true) →
      smtpAuthHook {} {} { username := ofStr "ALICE" }
        (.ok (some { username := ofStr "alice", scope := ofStr "user", enabled2fa := false })) =
        .ok { username := r.username, password := [] }) :=
  smtpAuth_deny_535 {} {} { username := ofStr "ALICE" }
    (.ok (some { username := ofStr "alice", scope := ofStr "user", enabled2fa := false }))
    rfl (fun _ h => Except.noConfusion h)

theorem trimList_bracket (ip : JStr) : trimList (91 :: ip ++ [93]) = 91 :: ip ++ [93] := by
  apply trimList_eq_self
  · intro c h
    injection h with h1
    subst h1
    rfl
  · intro c h
    rw [show 91 :: ip ++ [93] = (91 :: ip) ++ [93] from rfl, List.getLast?_concat] at h
    injection h with h1
    subst h1
    rfl

/-- C8: the Received-header builder.  First conjunct: on the claim's
concrete inputs (transhost `mail.example.com`, origin IP `203.0.113.5`,
no client hostname, no authenticated user, single recipient
`bob@example.org`, type ESMTP, id abc123, no TLS) the output is exactly
`Received: from mail.example.com [203.0.113.5]\r\n by <hostname> with
ESMTP id abc123\r\n for <bob@example.org>;\r\n <date>` for every hostname
and date oracle.  Remaining conjuncts: the origin renders as
`([ip] hostname)` when both an IP literal and a resolvable client
hostname are present, bare when only one of them is, and `localhost` when
neither is (a client hostname starting with `[` counts as absent). -/
theorem generateReceivedHeader_format :
    (∀ (hostname : JStr) (fmtDate : Nat → JStr) (t : Nat),
      generateReceivedHeader fmtDate
        { transhost := ofStr "mail.example.com", origin := ofStr "203.0.113.5",
          to_ := [ofStr "bob@example.org"], transtype := ofStr "ESMTP",
          id := ofStr "abc123", time := t } hostname =
      ofStr "Received: from mail.example.com [203.0.113.5]\r\n by " ++
        (hostname ++ (ofStr " with ESMTP id abc123\r\n for <bob@example.org>;\r\n " ++
          replaceFirst (ofStr "GMT") (ofStr "+0000") (fmtDate t)))) ∧
    (∀ env : Envelope, env.origin ≠ [] → env.originhost ≠ [] →
      env.originhost.head? ≠ some 91 →
      receivedOrigin env =
        ofStr "([" ++ (env.origin ++ (ofStr "] " ++ (env.originhost ++ ofStr ")")))) ∧
    (∀ env : Envelope, env.origin ≠ [] →
      (env.originhost = [] ∨ env.originhost.head? = some 91) →
      receivedOrigin env = ofStr "[" ++ (env.origin ++ ofStr "]")) ∧
    (∀ env : Envelope, env.origin = [] → env.originhost ≠ [] →
      env.originhost.head? ≠ some 91 → trimList env.originhost = env.originhost →
      receivedOrigin env = env.originhost) ∧
    (∀ env : Envelope, env.origin = [] →
      (env.originhost = [] ∨ env.originhost.head? = some 91) →
      receivedOrigin env = ofStr "localhost") := by
  refine ⟨?_, ?_, ?_, ?_, ?_⟩
  · intro hostname fmtDate t
    simp only [generateReceivedHeader, List.append_assoc, List.cons_append]
    rfl
  · intro env h1 h2 h3
    simp only [receivedOrigin]
    rw [if_pos h1,
        if_pos (show env.originhost ≠ [] ∧ env.originhost.head? ≠ some 91 from ⟨h2, h3⟩),
        if_pos (show (91 :: env.origin ++ [93] : JStr) ≠ [] by simp)]
    show (40 :: joinSp ([91 :: env.origin ++ [93]] ++ [env.originhost]) ++ [41] : JStr) =
      ofStr "([" ++ (env.origin ++ (ofStr "] " ++ (env.originhost ++ ofStr ")")))
    show (40 :: ((91 :: env.origin ++ [93]) ++ 32 :: env.originhost) ++ [41] : JStr) =
      ofStr "([" ++ (env.origin ++ (ofStr "] " ++ (env.originhost ++ ofStr ")")))
    simp only [List.append_assoc, List.cons_append, List.nil_append]
    rfl
  · intro env h1 h2
    simp only [receivedOrigin]
    rw [if_pos h1]
    rw [if_neg (show ¬ (env.originhost ≠ [] ∧ env.originhost.head? ≠ some 91) by
      rcases h2 with h | h
      · exact fun hx => hx.1 h
      · exact fun hx => hx.2 h)]
    rw [if_pos (show (91 :: env.origin ++ [93] : JStr) ≠ [] by simp)]
    show (if trimList (91 :: env.origin ++ [93]) ≠ [] then trimList (91 :: env.origin ++ [93])
        else ofStr "localhost") = ofStr "[" ++ (env.origin ++ ofStr "]")
    rw [trimList_bracket]
    rw [if_pos (show (91 :: env.origin ++ [93] : JStr) ≠ [] by simp)]
    simp only [List.cons_append, List.nil_append]
    rfl
  · intro env h1 h2 h3 h4
    simp only [receivedOrigin]
    rw [if_neg (show ¬ env.origin ≠ [] by simp [h1]),
        if_pos (show env.originhost ≠ [] ∧ env.originhost.head? ≠ some 91 from ⟨h2, h3⟩),
        if_neg (show ¬ (([] : JStr) ≠ []) by simp)]
    show (if trimList env.originhost ≠ [] then trimList env.originhost
        else ofStr "localhost") = env.originhost
    rw [h4, if_pos h2]
  · intro env h1 h2
    simp only [receivedOrigin]
    rw [if_neg (show ¬ env.origin ≠ [] by simp [h1])]
    rw [if_neg (show ¬ (env.originhost ≠ [] ∧ env.originhost.head? ≠ some 91) by
      rcases h2 with h | h
      · exact fun hx => hx.1 h
      · exact fun hx => hx.2 h)]
    rfl

/-- C8 witness: the claim's expected header rendered with a concrete
hostname and date, and the origin rules at concrete envelopes. -/
theorem generateReceivedHeader_format_witness :
    generateReceivedHeader (fun _ => ofStr "Wed, 03 Aug 2016 11:32:07 GMT")
      { transhost := ofStr "mail.example.com", origin := ofStr "203.0.113.5",
        to_ := [ofStr "bob@example.org"], transtype := ofStr "ESMTP",
        id := ofStr "abc123", time := 0 } (ofStr "mx.example.net") =
      ofStr "Received: from mail.example.com [203.0.113.5]\r\n by " ++
        (ofStr "mx.example.net" ++
          (ofStr " with ESMTP id abc123\r\n for <bob@example.org>;\r\n " ++
            replaceFirst (ofStr "GMT") (ofStr "+0000")
              (ofStr "Wed, 03 Aug 2016 11:32:07 GMT"))) ∧
    receivedOrigin { origin := ofStr "203.0.113.5", originhost := ofStr "client.example.org" } =
      ofStr "([" ++ (ofStr "203.0.113.5" ++ (ofStr "] " ++ (ofStr "client.example.org" ++ ofStr ")"))) ∧
    receivedOrigin {} = ofStr "localhost" :=
  ⟨generateReceivedHeader_format.1 (ofStr "mx.example.net")
      (fun _ => ofStr "Wed, 03 Aug 2016 11:32:07 GMT") 0,
   generateReceivedHeader_format.2.1
      { origin := ofStr "203.0.113.5", originhost := ofStr "client.example.org" }
      (by decide) (by decide) (by decide),
   generateReceivedHeader_format.2.2.2.2 {} rfl (Or.inl rfl)⟩

/-- C9: with an MX override configured, the sender:fetch hook leaves the
delivery entirely unchanged when the canonicalized recipient is not in
the local address directory, and overrides exactly the transport
parameters (MX host list, MX port, LMTP flag, zone address) when it is,
leaving every other field of the delivery intact. -/
theorem senderFetch_override
    (cfg : Config) (nfc toUni : JStr → JStr)
    (findAddressAny : JStr → Except MtaError Bool) (d : Delivery)
    (hosts : List JStr) (hmx : cfg.mx = some hosts) :
    (findAddressAny (normalizeAddress nfc toUni (.str d.envelope.to_)) = .ok false →
      senderFetchHook cfg nfc toUni findAddressAny d = .ok d) ∧
    (findAddressAny (normalizeAddress nfc toUni (.str d.envelope.to_)) = .ok true →
      senderFetchHook cfg nfc toUni findAddressAny d = .ok { d with
        mx := hosts, mxPort := cfg.mxPort, useLMTP := true,
        zoneAddress := cfg.zoneAddress }) := by
  constructor
  · intro h
    simp only [senderFetchHook, h]
  · intro h
    simp only [senderFetchHook, h, hmx, Option.getD_some]

/-- C9 witness: with MX override `[mx.local]`, a remote recipient leaves
the delivery unchanged and a local recipient gets the LMTP override. -/
theorem senderFetch_override_witness :
    ((fun a => Except.ok (a == ofStr "bob@example.org") : JStr → Except MtaError Bool)
        (normalizeAddress (fun s => s) (fun s => s)
          (.str ({ envelope := { to_ := ofStr "Remote@elsewhere.example" } } : Delivery).envelope.to_)) = .ok false →
      senderFetchHook { mx := some [ofStr "mx.local"], mxPort := 24, zoneAddress := ofStr "10.0.0.1" }
        (fun s => s) (fun s => s)
        (fun a => Except.ok (a == ofStr "bob@example.org"))
        { envelope := { to_ := ofStr "Remote@elsewhere.example" } } =
        .ok { envelope := { to_ := ofStr "Remote@elsewhere.example" } }) ∧
    ((fun a => Except.ok (a == ofStr "bob@example.org") : JStr → Except MtaError Bool)
        (normalizeAddress (fun s => s) (fun s => s)
          (.str ({ envelope := { to_ := ofStr "Remote@elsewhere.example" } } : Delivery).envelope.to_)) = .ok true →
      senderFetchHook { mx := some [ofStr "mx.local"], mxPort := 24, zoneAddress := ofStr "10.0.0.1" }
        (fun s => s) (fun s => s)
        (fun a => Except.ok (a == ofStr "bob@example.org"))
        { envelope := { to_ := ofStr "Remote@elsewhere.example" } } =
        .ok { ({ envelope := { to_ := ofStr "Remote@elsewhere.example" } } : Delivery) with
          mx := [ofStr "mx.local"], mxPort := 24, useLMTP := true,
          zoneAddress := ofStr "10.0.0.1" }) :=
  senderFetch_override
    { mx := some [ofStr "mx.local"], mxPort := 24, zoneAddress := ofStr "10.0.0.1" }
    (fun s => s) (fun s => s)
    (fun a => Except.ok (a == ofStr "bob@example.org"))
    { envelope := { to_ := ofStr "Remote@elsewhere.example" } }
    [ofStr "mx.local"] rfl

/-- C10: when the delivery's envelope sender is empty (missing), the
sender:headers hook returns the delivery entirely unchanged and never
invokes the SRS rewriter — no X-Original-Sender, X-Zone-Forwarded-For or
X-Zone-Forwarded-To headers are added — even when the delivery's
interface is the designated forwarder. -/
theorem senderHeaders_empty_from_unchanged
    (cfg : Config) (srsFn : JStr → JStr → Except JStr JStr) (d : Delivery)
    (h : d.envelope.from_ = []) :
    senderHeadersHook cfg srsFn d = ⟨d, false⟩ := by
  unfold senderHeadersHook
  rw [if_pos (Or.inl h)]

/-- C10 witness: a delivery on the forwarder interface with an empty
envelope sender passes through unchanged with no SRS invocation. -/
theorem senderHeaders_empty_from_unchanged_witness :
    senderHeadersHook { forwarder := ofStr "forwarder", rewriteDomain := ofStr "fwd.example" }
      (fun l dom => .ok (l ++ dom))
      { iface := ofStr "forwarder", envelope := { from_ := [], to_ := ofStr "rcpt@example.net" } } =
      ⟨{ iface := ofStr "forwarder", envelope := { from_ := [], to_ := ofStr "rcpt@example.net" } }, false⟩ :=
  senderHeaders_empty_from_unchanged
    { forwarder := ofStr "forwarder", rewriteDomain := ofStr "fwd.example" }
    (fun l dom => .ok (l ++ dom))
    { iface := ofStr "forwarder", envelope := { from_ := [], to_ := ofStr "rcpt@example.net" } }
    rfl

/-- C2 witness: a user authorized for `alice@example.org` sending with
that envelope sender but a From: header of `evil@bad.example`: the hook
rewrites the From: header to render the (unchanged) envelope sender and
archives the original value under X-WildDuck-Original-From. -/
theorem messageHeaders_from_rewrite_witness :
    ∃ env' : Envelope,
      messageHeadersHook {} (fun s => s) (fun s => s)
        { from_ := ofStr "alice@example.org", user := ofStr "alice",
          headers := [(ofStr "From", ofStr "Evil <evil@bad.example>")] }
        (some { _id := ofStr "u1", username := ofStr "alice", address := ofStr "alice@example.org" })
        (fun _ => .ok none)
        (fun a _ => .ok (a == ofStr "alice@example.org"))
        (fun _ => [{ name := ofStr "Evil", address := ofStr "evil@bad.example" }])
        (fun o => o.address) = .ok env' ∧
      env'.from_ = (if (true : Bool) = true then ofStr "alice@example.org"
        else ofStr "alice@example.org") ∧
      getFirst env'.headers (ofStr "From") = env'.from_ ∧
      getFirst env'.headers (ofStr "X-WildDuck-Original-From") =
        getFirst [(ofStr "From", ofStr "Evil <evil@bad.example>")] (ofStr "from") :=
  messageHeaders_from_rewrite {} (fun s => s) (fun s => s)
    { from_ := ofStr "alice@example.org", user := ofStr "alice",
      headers := [(ofStr "From", ofStr "Evil <evil@bad.example>")] }
    (some { _id := ofStr "u1", username := ofStr "alice", address := ofStr "alice@example.org" })
    (fun _ => .ok none)
    (fun a _ => .ok (a == ofStr "alice@example.org"))
    (fun _ => [{ name := ofStr "Evil", address := ofStr "evil@bad.example" }])
    (fun o => o.address)
    { _id := ofStr "u1", username := ofStr "alice", address := ofStr "alice@example.org" }
    { name := ofStr "Evil", address := ofStr "evil@bad.example" } [] true
    rfl rfl (by decide) rfl rfl rfl rfl
